import Mathlib

/-!
Verification of the chat-analytics ingestion core of the
AI-PersonalAssistant-Capstone backend against its natural-language
specification.

Shallow embedding conventions:
* Python strings are `List Char`; `String.data` builds literals.
* Python floats are modelled as rationals (`ℚ`): every operation the code
  performs on scores is a comparison or a `max`/`min` clamp against the
  literals `-1.0`, `1.0`, `0.1`, so the order structure is all that matters.
* Fallible Python code (paths that raise) returns `Option`.
* SQLite state is explicit: a record of table contents threaded through the
  operations that the source performs on it.
-/

namespace Capstone

/-! ## Python string primitives -/

/-- Characters stripped by Python `str.strip()` (ASCII whitespace). -/
def isPySpace (c : Char) : Bool :=
  c = ' ' || c = '\t' || c = '\n' || c = '\r' || c = '\x0b' || c = '\x0c'

/-- Python `str.lstrip()`. -/
def pyStripLeft (s : List Char) : List Char := s.dropWhile isPySpace

/-- Python `str.strip()`: drop ASCII whitespace from both ends. -/
def pyStrip (s : List Char) : List Char :=
  ((s.dropWhile isPySpace).reverse.dropWhile isPySpace).reverse

/-- Python `\w` character class (ASCII fragment): alphanumeric or underscore. -/
def isWordChar (c : Char) : Bool := c.isAlphanum || c = '_'

/-- A single or double quote character, the class `['"]` of the source regexes. -/
def isQuoteChar (c : Char) : Bool := c = '\'' || c = '\"'

/-- Does `s` begin with the literal `pat`? -/
def matchesAt : List Char → List Char → Bool
  | [], _ => true
  | _ :: _, [] => false
  | p :: ps, c :: cs => p = c && matchesAt ps cs

/-- Suffix of `s` after the first (leftmost) occurrence of the literal `pat`,
`none` when `pat` does not occur.  This is the effect of a lazy `.*?pat` scan
of a Python regex under `re.DOTALL`. -/
def afterFirst (pat : List Char) : List Char → Option (List Char)
  | [] => if pat.isEmpty then some [] else none
  | c :: cs =>
    if matchesAt pat (c :: cs) then some ((c :: cs).drop pat.length)
    else afterFirst pat cs

/-! ## ChatMessageParser.parse_chat_message_content
(`Backend/chat_process_pipeline.py`, lines 43-83)

The source applies `re.search` with pattern
`role='(\w+)'.*?content=\[(.*?)\]` under `re.DOTALL`.  A match anchored at a
given position requires the literal `role='`, then a nonempty maximal run of
word characters immediately followed by `'` (the greedy `(\w+)'` can only
succeed that way), then the nearest following `content=[`, then group 2 runs
to the nearest following `]`.  `re.search` takes the leftmost position where
the whole pattern matches. -/

def roleLit : List Char := "role='".data
def contentLit : List Char := "content=[".data

/-- One anchored attempt of the `role='(\w+)'.*?content=\[(.*?)\]` pattern at
the start of `s`: returns (group 1, group 2) on success. -/
def attemptRoleContent (s : List Char) : Option (List Char × List Char) :=
  if matchesAt roleLit s then
    let t := s.drop roleLit.length
    let w := t.takeWhile isWordChar
    let r := t.dropWhile isWordChar
    match r with
    | '\'' :: r2 =>
      if w.isEmpty then none
      else
        match afterFirst contentLit r2 with
        | some u =>
          if u.any (fun c => c = ']') then some (w, u.takeWhile (fun c => c ≠ ']'))
          else none
        | none => none
    | _ => none
  else none

/-- Model of `re.search` with the ChatMessage pattern: leftmost anchored success. -/
def searchRoleContent : List Char → Option (List Char × List Char)
  | [] => none
  | c :: cs =>
    match attemptRoleContent (c :: cs) with
    | some rc => some rc
    | none => searchRoleContent cs

/-- The source's cleanup `re.sub(r'^[\'"]|[\'"]$', "", s)`: remove one
leading quote character and one trailing quote character. -/
def stripOneWrapQuote (s : List Char) : List Char :=
  let s1 := match s with
    | [] => []
    | c :: cs => if isQuoteChar c then cs else c :: cs
  match s1.reverse with
  | [] => s1
  | c :: cs => if isQuoteChar c then cs.reverse else s1

/-- Python `str.replace("\\n", " ")`: left-to-right, non-overlapping
replacement of the two-character sequence backslash-n by a space. -/
def replaceEscNl : List Char → List Char
  | [] => []
  | '\\' :: 'n' :: rest => ' ' :: replaceEscNl rest
  | c :: rest => c :: replaceEscNl rest

/-- Cleanup applied to the matched content group (source lines 67-68):
strip, remove wrapping quotes, collapse escaped newlines, strip. -/
def cleanContent (mc : List Char) : List Char :=
  pyStrip (replaceEscNl (stripOneWrapQuote (pyStrip mc)))

/-- Model of the fallback search `re.search(r'[\'"]([^\'\"]+)[\'"]', content)`:
leftmost quote character followed by a nonempty run of non-quote characters
followed by another quote character (the quotes need not match); yields
group 1. -/
def searchQuoted : List Char → Option (List Char)
  | [] => none
  | c :: cs =>
    if isQuoteChar c then
      let run := cs.takeWhile (fun x => !(isQuoteChar x))
      let rest := cs.dropWhile (fun x => !(isQuoteChar x))
      if !run.isEmpty && !rest.isEmpty then some run else searchQuoted cs
    else searchQuoted cs

def userStr : List Char := "user".data

/-- Embedding of `ChatMessageParser.parse_chat_message_content` (source lines 43-83).
The surrounding `try`/`except` is unreachable for string inputs (every
operation in the body is total on strings), so the function is total here. -/
def parse_chat_message_content (content : List Char) :
    Option (List Char) × List Char :=
  match searchRoleContent content with
  | some (role, mc) => (some role, cleanContent mc)
  | none =>
    match searchQuoted content with
    | some q => (some userStr, q)
    | none => (none, pyStrip content)

/-! ## MessageAnalyzer (`Backend/chat_process_pipeline.py`, lines 86-208)

The analyzer feeds the external model's response through `json.loads`; the
values reaching `_validate_analysis` are therefore JSON values, modelled by
`PyVal`.  Numeric values are rationals (see header).  `pyRepr`/`pyStr` model
Python `repr`/`str` closely enough for the pipeline: the only fact any claim
uses is that `str` of a string is the string itself and that `str` is total.
-/

inductive PyVal where
  | intV : Int → PyVal
  | floatV : ℚ → PyVal
  | boolV : Bool → PyVal
  | strV : List Char → PyVal
  | listV : List PyVal → PyVal
  | noneV : PyVal
  | dictV : List (List Char × PyVal) → PyVal

mutual

/-- Python `repr` of a JSON-shaped value (numeric rendering via `toString`,
an inessential simplification: no claim depends on number formatting). -/
def pyRepr : PyVal → List Char
  | .intV n => (toString n).data
  | .floatV q => (toString q).data
  | .boolV b => if b then "True".data else "False".data
  | .strV s => '\'' :: (s ++ ['\''])
  | .noneV => "None".data
  | .listV l => '[' :: (pyReprList l ++ [']'])
  | .dictV l => '\x7b' :: (pyReprDict l ++ ['\x7d'])

def pyReprList : List PyVal → List Char
  | [] => []
  | [x] => pyRepr x
  | x :: y :: xs => pyRepr x ++ (", ".data ++ pyReprList (y :: xs))

def pyReprDict : List (List Char × PyVal) → List Char
  | [] => []
  | [(k, v)] => pyRepr (.strV k) ++ (": ".data ++ pyRepr v)
  | (k, v) :: y :: xs =>
    pyRepr (.strV k) ++ (": ".data ++ (pyRepr v ++ (", ".data ++ pyReprDict (y :: xs))))

end

/-- Python `str` of a JSON-shaped value. -/
def pyStr : PyVal → List Char
  | .strV s => s
  | v => pyRepr v

/-- Model of `isinstance(x, (int, float))` followed by `float(x)`.  In Python `bool`
is a subclass of `int`, so booleans convert (`True ↦ 1.0`). -/
def pyFloat? : PyVal → Option ℚ
  | .intV n => some (n : ℚ)
  | .floatV q => some q
  | .boolV b => some (if b then 1 else 0)
  | _ => none

/-- Python `.lower()`: defined on strings, raises `AttributeError` on any
other value (modelled by `none`). -/
def pyLower? : PyVal → Option (List Char)
  | .strV s => some (s.map Char.toLower)
  | _ => none

/-- The analysis dict as read by `_validate_analysis`: only these four keys
are accessed (via `.get` with defaults); `none` models an absent key. -/
structure AnalysisDict where
  sentiment_score : Option PyVal
  sentiment_label : Option PyVal
  emotion_label : Option PyVal
  contains_keywords : Option PyVal

/-- The validated record produced by `_validate_analysis`. -/
structure Validated where
  sentiment_score : ℚ
  sentiment_label : List Char
  emotion_label : List Char
  contains_keywords : List (List Char)
deriving DecidableEq

def positiveStr : List Char := "positive".data
def negativeStr : List Char := "negative".data
def neutralStr : List Char := "neutral".data

/-- Model of `max(-1.0, min(1.0, x))` (source line 155). -/
def clampScore (q : ℚ) : ℚ := max (-1) (min 1 q)

/-- Label inference from the clamped score (source lines 165-171). -/
def deriveLabel (score : ℚ) : List Char :=
  if score > 1/10 then positiveStr
  else if score < -(1/10) then negativeStr
  else neutralStr

def validEmotions : List (List Char) :=
  ["joy".data, "sadness".data, "anger".data, "fear".data,
   "surprise".data, "disgust".data, neutralStr]

/-- Embedding of `MessageAnalyzer._validate_analysis` (source lines 148-199).
Returns `none` when the Python code raises: `.lower()` is called on the
`sentiment_label` / `emotion_label` values, which raises `AttributeError`
when the value present under the key is not a string (the exception escapes
`_validate_analysis` and is caught by the outer handler of
`analyze_message`, line 144). -/
def validate_analysis (a : AnalysisDict) : Option Validated :=
  let rawScore := a.sentiment_score.getD (.floatV 0)
  let score : ℚ :=
    match pyFloat? rawScore with
    | some q => clampScore q
    | none => 0
  match pyLower? (a.sentiment_label.getD (.strV neutralStr)) with
  | none => none
  | some lbl =>
    let sentLabel :=
      if lbl = positiveStr ∨ lbl = negativeStr ∨ lbl = neutralStr then lbl
      else deriveLabel score
    match pyLower? (a.emotion_label.getD (.strV neutralStr)) with
    | none => none
    | some emo =>
      let emoLabel := if emo ∈ validEmotions then emo else neutralStr
      let kws :=
        match a.contains_keywords.getD (.listV []) with
        | .listV l =>
          ((l.take 5).map (fun kw => pyStrip (pyStr kw))).filter
            (fun s => !s.isEmpty)
        | _ => []
      some ⟨score, sentLabel, emoLabel, kws⟩

/-- Embedding of `MessageAnalyzer._get_default_analysis` (source lines 201-208). -/
def default_analysis : Validated :=
  ⟨0, neutralStr, neutralStr, []⟩

/-- The external capability as seen by `analyze_message`: `none` models the
unconfigured model (`GEMINI_API_KEY` absent, so the module-level `model` is
`None`); `some f` models a configured model, where `f` is the composite of
`generate_content`, the markdown-fence stripping and `json.loads`
(source lines 106-134) — `f` returning `none` covers every failure of that
composite (an exception from the call or a `JSONDecodeError`), each of which
the source maps to the default analysis. -/
def Oracle := Option (List Char → Option AnalysisDict)

/-- Embedding of `MessageAnalyzer.analyze_message` (source lines 92-146).  Total: every
exception path in the source returns `_get_default_analysis()`. -/
def analyze_message (oracle : Oracle) (message : List Char) : Validated :=
  match oracle with
  | none => default_analysis
  | some f =>
    match f message with
    | none => default_analysis
    | some a =>
      match validate_analysis a with
      | some v => v
      | none => default_analysis

/-! ## UserDatabase (`Backend/database.py`)

State of the tables touched by the message-insertion path, plus the
`log_inserts` queue table the specification's QueueEntry invariant speaks
about.  `init_database` (source lines 23-113) creates the tables `users`,
`user_details`, `chat_sessions`, `chat_messages` and two indexes on
`chat_messages` — and nothing else: no `log_inserts` table, no
`message_analytics` table, and no trigger (in particular not the
`trigger_log_chat_message_inserts` trigger that
`Backend/test_dashboard_system.py` and `Backend/migrate_chat_messages.py`
check for).  The `log_inserts` component is part of the model state so the
QueueEntry invariant can be stated; no code on the insertion path ever
writes to it. -/

structure ChatMessageRow where
  id : Nat
  user_id : Int
  session_id : List Char
  role : List Char
  content : List Char
deriving DecidableEq

structure ChatSessionRow where
  user_id : Int
  session_id : List Char
deriving DecidableEq

structure LogInsertRow where
  chat_message_id : Nat
  processed : Bool
deriving DecidableEq

structure DBState where
  chat_sessions : List ChatSessionRow
  chat_messages : List ChatMessageRow
  log_inserts : List LogInsertRow
  next_message_id : Nat
deriving DecidableEq

/-- Schema objects `init_database` creates (source lines 23-113): table and
trigger names, read off the executed DDL statements. -/
def init_database_table_names : List (List Char) :=
  ["users".data, "user_details".data, "chat_sessions".data,
   "chat_messages".data]

/-- Triggers created by `init_database`: none — the DDL in lines 23-113
contains no `CREATE TRIGGER` statement. -/
def init_database_trigger_names : List (List Char) := []

/-- The database state produced by `init_database` on a fresh file: empty
tables (ids of `chat_messages` AUTOINCREMENT from 1). -/
def init_database : DBState := ⟨[], [], [], 1⟩

/-- The CHECK constraint on `chat_messages.role` (source line 88). -/
def validRoles : List (List Char) :=
  [userStr, "assistant".data, "system".data]

/-- Embedding of `UserDatabase.save_chat_message` (source lines 389-425): one
transaction that (1) `INSERT OR IGNORE`s the session row (unique on
`(user_id, session_id)`) and (2) inserts the message row, then commits.
It inserts into no other table, and the schema built by `init_database`
attaches no trigger to `chat_messages`, so `log_inserts` is untouched.
A role outside the CHECK constraint raises `IntegrityError`; the
connection context manager rolls the transaction back and the handler
returns `False` (modelled as `(false, unchanged state)`). -/
def save_chat_message (st : DBState) (user_id : Int)
    (session_id role content : List Char) : Bool × DBState :=
  if role ∈ validRoles then
    let sessions :=
      if st.chat_sessions.any
          (fun r => r.user_id = user_id && r.session_id = session_id)
      then st.chat_sessions
      else st.chat_sessions ++ [⟨user_id, session_id⟩]
    (true,
     { st with
        chat_sessions := sessions
        chat_messages := st.chat_messages ++
          [⟨st.next_message_id, user_id, session_id, role, content⟩]
        next_message_id := st.next_message_id + 1 })
  else (false, st)

/-- Number of `log_inserts` rows referencing a given message id. -/
def queueEntryCount (st : DBState) (id : Nat) : Nat :=
  (st.log_inserts.filter (fun r => r.chat_message_id = id)).length

/-! ## Batch processor and session pipeline
(`Backend/chat_process_pipeline.py`, lines 211-561)

The pipeline drives five storage operations that the specification lists as
the storage collaborator's interface (spec §6):
`get_unprocessed_message_ids`, `get_chat_messages_by_ids`,
`save_message_analytics`, `mark_messages_processed`,
`clear_processed_log_entries`.  This repository contains their call sites
but not their bodies (`UserDatabase` does not define them).

Modelled from the spec: the storage collaborator (`QueueDB`).  Missing from
the repository are the five `UserDatabase` methods above; per spec §6 they
return, respectively, the sequence of pending ids, the message rows for the
given ids, and a success boolean for each of the three mutators.  The model
therefore carries the pending-id list, the fetch result, a per-message
outcome for `save_message_analytics` (which, like every other
`UserDatabase` method, may also raise), and booleans for the two
queue-retirement calls.

Every storage call the pipeline makes is recorded in a trace of `DBEvent`s
so that ordering and which-rows-were-written properties can be stated. -/

structure PipeMsg where
  id : Nat
  user_id : Int
  session_id : List Char
  role : List Char
  content : List Char
deriving DecidableEq

/-- Outcome of one `db.save_message_analytics(...)` call:
`ok` = returns `True`, `failed` = returns `False`, `raised` = raises an
exception (caught by the loop's per-message handler). -/
inductive SaveOutcome where
  | ok
  | failed
  | raised
deriving DecidableEq

/-- Modelled from the spec: the storage collaborator of spec §6 (the five
`UserDatabase` methods the pipeline calls but the repository never
defines). -/
structure QueueDB where
  unprocessed_ids : List Nat
  fetch : List Nat → List PipeMsg
  save_out : Nat → SaveOutcome
  mark_ok : Bool
  clear_ok : Bool

/-- Trace of storage/analyzer activity during one pipeline run.
`saveAnalytics id seq role text ok` records one invocation of
`db.save_message_analytics` with the given `sequence_number`, `role` and
`message` arguments, made while processing the chat message `id`
(provenance; the SQL row itself carries no message id); `ok` is true iff
the call returned `True` — i.e. iff an `AnalysisResult` row was persisted.
`analyzeCall id text` records one `analyzer.analyze_message(text)` call
made while processing message `id`. -/
inductive DBEvent where
  | getUnprocessed
  | getMessages (ids : List Nat)
  | analyzeCall (id : Nat) (text : List Char)
  | saveAnalytics (id : Nat) (seq : Nat) (role : List Char)
      (text : List Char) (ok : Bool)
  | markProcessed (ids : List Nat)
  | clearEntries
deriving DecidableEq

/-- The message text used by the queue loop (source line 475):
`parsed_message or message["content"]` — the parsed text, falling back to
the raw content when the parsed text is empty. -/
def pipeText (m : PipeMsg) : List Char :=
  let p := (parse_chat_message_content m.content).2
  if p.isEmpty then m.content else p

/-- The role used by the queue loop (source line 476):
`parsed_role or message["role"]`. -/
def pipeRole (m : PipeMsg) : List Char :=
  match (parse_chat_message_content m.content).1 with
  | some r => r
  | none => m.role

/-- The per-message loop of `process_unprocessed_messages` (source lines
467-519), with `idx` the running 1-based `enumerate` counter.  Returns
`(processed_count, processed_message_ids, events)`. -/
def processLoop (oracle : Oracle) (save_out : Nat → SaveOutcome) :
    Nat → List PipeMsg → Nat × List Nat × List DBEvent
  | _, [] => (0, [], [])
  | idx, m :: rest =>
    let text := pipeText m
    let r := processLoop oracle save_out (idx + 1) rest
    if (pyStrip text).isEmpty then
      -- skip empty (lines 479-482): no analysis, no save, id still collected
      (r.1, m.id :: r.2.1, r.2.2)
    else
      let _analysis := analyze_message oracle text
      let aev := DBEvent.analyzeCall m.id text
      match save_out m.id with
      | .ok =>
        (r.1 + 1, m.id :: r.2.1,
         aev :: DBEvent.saveAnalytics m.id idx (pipeRole m) text true :: r.2.2)
      | .failed =>
        -- save returned False (lines 508-511): logged; id NOT collected
        (r.1, r.2.1,
         aev :: DBEvent.saveAnalytics m.id idx (pipeRole m) text false :: r.2.2)
      | .raised =>
        -- exception (lines 513-519): logged; id still collected
        (r.1, m.id :: r.2.1,
         aev :: DBEvent.saveAnalytics m.id idx (pipeRole m) text false :: r.2.2)

/-- The structured result dict of `process_unprocessed_messages`.
`Option` fields model keys present only on some return paths. -/
structure PipeResult where
  success : Bool
  processed_count : Nat
  total_unprocessed : Nat
  total_retrieved : Option Nat
  marked_processed : Option Nat
  message : Option (List Char)
  error : Option (List Char)
deriving DecidableEq

/-- Embedding of `process_unprocessed_messages` (source lines 419-561), returning the
result dict together with the trace of storage calls. -/
def process_unprocessed_messages (d : QueueDB) (oracle : Oracle) :
    PipeResult × List DBEvent :=
  let ids := d.unprocessed_ids
  if ids.isEmpty then
    ({ success := true, processed_count := 0, total_unprocessed := 0,
       total_retrieved := none, marked_processed := none,
       message := some "No unprocessed messages found".data, error := none },
     [DBEvent.getUnprocessed])
  else
    let messages := d.fetch ids
    if messages.isEmpty then
      ({ success := false, processed_count := 0,
         total_unprocessed := ids.length, total_retrieved := none,
         marked_processed := none, message := none,
         error := some "Failed to retrieve messages for processing".data },
       [DBEvent.getUnprocessed, DBEvent.getMessages ids])
    else
      let res := processLoop oracle d.save_out 1 messages
      let cnt := res.1
      let pids := res.2.1
      let loopEvs := res.2.2
      -- lines 521-534: mark then clear, both only when any id was collected;
      -- clear is invoked regardless of mark's returned success
      let tailEvs :=
        if pids.isEmpty then []
        else [DBEvent.markProcessed pids, DBEvent.clearEntries]
      ({ success := cnt > 0, processed_count := cnt,
         total_unprocessed := ids.length,
         total_retrieved := some messages.length,
         marked_processed := some pids.length, message := none,
         error := if cnt > 0 then none
                  else some "No messages were successfully processed".data },
       DBEvent.getUnprocessed :: DBEvent.getMessages ids ::
         (loopEvs ++ tailEvs))

/-! ### Session-scoped pipeline (source lines 211-416) -/

/-- A processed user message as built by `process_user_messages`
(source lines 287-296); the stored role is rewritten to `"user"`. -/
structure UserMsg where
  id : Nat
  user_id : Int
  session_id : List Char
  role : List Char
  message : List Char
deriving DecidableEq

/-- Embedding of `ChatAnalyticsPipeline.process_user_messages` (source lines 264-304):
keep a message iff its parsed role is `"user"` or its stored role is
`"user"`; the kept entry's text is `parsed_message or content`.  The
per-message `try`/`except` is unreachable for well-typed rows (the parser
is total). -/
def process_user_messages : List PipeMsg → List UserMsg
  | [] => []
  | m :: rest =>
    let parsed := parse_chat_message_content m.content
    if parsed.1 = some userStr ∨ m.role = userStr then
      ⟨m.id, m.user_id, m.session_id, userStr,
       if parsed.2.isEmpty then m.content else parsed.2⟩ ::
        process_user_messages rest
    else process_user_messages rest

/-- Embedding of `ChatAnalyticsPipeline.analyze_and_save_messages` (source lines
306-350), with `idx` the 1-based `enumerate` counter.  Returns
`(processed_count, events)`. -/
def analyze_and_save_messages (oracle : Oracle)
    (save_out : Nat → SaveOutcome) :
    Nat → List UserMsg → Nat × List DBEvent
  | _, [] => (0, [])
  | idx, m :: rest =>
    let _analysis := analyze_message oracle m.message
    let aev := DBEvent.analyzeCall m.id m.message
    let r := analyze_and_save_messages oracle save_out (idx + 1) rest
    match save_out m.id with
    | .ok =>
      (r.1 + 1, aev :: DBEvent.saveAnalytics m.id idx m.role m.message true :: r.2)
    | .failed =>
      (r.1, aev :: DBEvent.saveAnalytics m.id idx m.role m.message false :: r.2)
    | .raised =>
      -- exception (lines 346-348): logged, loop continues
      (r.1, aev :: DBEvent.saveAnalytics m.id idx m.role m.message false :: r.2)

structure SessionResult where
  success : Bool
  processed_count : Nat
  total_messages : Nat
  user_messages : Nat
  error : Option (List Char)
deriving DecidableEq

/-- Embedding of `process_session_analytics` (source lines 353-416).  The
`get_session_messages` read is modelled by passing the session's message
rows (`all_messages`) as input. -/
def process_session_analytics (oracle : Oracle)
    (save_out : Nat → SaveOutcome) (all_messages : List PipeMsg) :
    SessionResult × List DBEvent :=
  if all_messages.isEmpty then
    ({ success := false, processed_count := 0, total_messages := 0,
       user_messages := 0,
       error := some "No messages found for session".data }, [])
  else
    let user_messages := process_user_messages all_messages
    if user_messages.isEmpty then
      ({ success := false, processed_count := 0,
         total_messages := all_messages.length, user_messages := 0,
         error := some "No user messages found for session".data }, [])
    else
      let res := analyze_and_save_messages oracle save_out 1 user_messages
      let cnt := res.1
      let evs := res.2
      ({ success := cnt > 0, processed_count := cnt,
         total_messages := all_messages.length,
         user_messages := user_messages.length,
         error := if cnt > 0 then none
                  else some "Failed to process any messages".data }, evs)

/-! ### Trace observations -/

/-- Sequence numbers of the `AnalysisResult` rows actually persisted in a
trace (save invocations that returned `True`), in trace order. -/
def persistedSeqs (evs : List DBEvent) : List Nat :=
  evs.filterMap fun ev =>
    match ev with
    | .saveAnalytics _ seq _ _ true => some seq
    | _ => none

/-- Message ids for which a `save_message_analytics` invocation occurs in
the trace (whether or not it reported success). -/
def saveIds (evs : List DBEvent) : List Nat :=
  evs.filterMap fun ev =>
    match ev with
    | .saveAnalytics id _ _ _ _ => some id
    | _ => none

/-- All ids passed to `mark_messages_processed` calls in the trace. -/
def markedIds (evs : List DBEvent) : List Nat :=
  (evs.filterMap fun ev =>
    match ev with
    | .markProcessed ids => some ids
    | _ => none).flatten

/-- One-based enumeration, the shape of Python `enumerate(xs, k)`. -/
def idxFrom (k : Nat) : List α → List (Nat × α)
  | [] => []
  | x :: xs => (k, x) :: idxFrom (k + 1) xs

/-- Message ids for which an `analyze_message` call occurs in the trace. -/
def analyzeIds (evs : List DBEvent) : List Nat :=
  evs.filterMap fun ev =>
    match ev with
    | .analyzeCall id _ => some id
    | _ => none

/-! ### Statement-level predicates and concrete scenarios -/

/-- Is an optional dict value absent or a string?  (`.lower()` succeeds
exactly on these.) -/
def isStrOpt : Option PyVal → Bool
  | none => true
  | some (.strV _) => true
  | some _ => false

/-- The per-dict guarantee claimed for `_validate_analysis`: the validation
produces a record whose score is clamped into `[-1, 1]` (`0` when the value
is non-numeric), whose sentiment label is in the three-value enum and is
re-derived from the clamped score when the (lowercased) supplied label is
invalid, whose emotion label is in the seven-value enum (defaulting to
neutral), and whose keywords are at most five stringified, stripped,
nonempty entries (empty when the supplied value is not a list). -/
def ValidationSpec (a : AnalysisDict) : Prop :=
  ∃ v, validate_analysis a = some v ∧
    (-1 ≤ v.sentiment_score ∧ v.sentiment_score ≤ 1) ∧
    (∀ q, pyFloat? (a.sentiment_score.getD (.floatV 0)) = some q →
      v.sentiment_score = clampScore q) ∧
    (pyFloat? (a.sentiment_score.getD (.floatV 0)) = none →
      v.sentiment_score = 0) ∧
    v.sentiment_label ∈ [positiveStr, neutralStr, negativeStr] ∧
    (∀ s, a.sentiment_label = some (.strV s) →
      (s.map Char.toLower = positiveStr ∨ s.map Char.toLower = negativeStr ∨
       s.map Char.toLower = neutralStr) →
      v.sentiment_label = s.map Char.toLower) ∧
    (∀ s, a.sentiment_label = some (.strV s) →
      ¬(s.map Char.toLower = positiveStr ∨ s.map Char.toLower = negativeStr ∨
        s.map Char.toLower = neutralStr) →
      v.sentiment_label = deriveLabel v.sentiment_score) ∧
    (a.sentiment_label = none → v.sentiment_label = neutralStr) ∧
    v.emotion_label ∈ validEmotions ∧
    (∀ s, a.emotion_label = some (.strV s) →
      s.map Char.toLower ∉ validEmotions → v.emotion_label = neutralStr) ∧
    (∀ s, a.emotion_label = some (.strV s) →
      s.map Char.toLower ∈ validEmotions →
      v.emotion_label = s.map Char.toLower) ∧
    v.contains_keywords.length ≤ 5 ∧
    (∀ k ∈ v.contains_keywords, k ≠ [] ∧
      ∃ kw, (∃ l, a.contains_keywords.getD (.listV []) = .listV l ∧
               kw ∈ l.take 5) ∧
        k = pyStrip (pyStr kw)) ∧
    ((∀ l, a.contains_keywords.getD (.listV []) ≠ .listV l) →
      v.contains_keywords = [])

/-- A model response whose `sentiment_label` is a (JSON) number: `.lower()`
raises on it.  Score `0.5` would re-derive to `"positive"`. -/
def dictNumberLabel : AnalysisDict :=
  ⟨some (.floatV (1/2)), some (.intV 5), none, none⟩

/-- The spec §8 validation example: score `5.0`, label `"Positive"`,
emotion `"ecstatic"`, 8 keywords. -/
def dictSpecExample : AnalysisDict :=
  ⟨some (.floatV 5), some (.strV "Positive".data),
   some (.strV "ecstatic".data),
   some (.listV (["k1".data, "k2".data, "k3".data, "k4".data, "k5".data,
                  "k6".data, "k7".data, "k8".data].map PyVal.strV))⟩

/-- Storage collaborator with an empty pending set. -/
def dbEmptyQueue : QueueDB :=
  ⟨[], fun _ => [], fun _ => .ok, true, true⟩

/-- One pending plain-text message; `mark_messages_processed` reports
failure while saving succeeds. -/
def dbMarkFails : QueueDB :=
  ⟨[5], fun _ => [⟨5, 1, "s".data, userStr, "hi there".data⟩],
   fun _ => .ok, false, true⟩

/-- One pending plain-text message whose `save_message_analytics` call
returns `False` (reports failure without raising). -/
def dbSaveFails : QueueDB :=
  ⟨[7], fun _ => [⟨7, 1, "s".data, userStr, "hi there".data⟩],
   fun _ => .failed, true, true⟩

/-- One pending plain-text message whose `save_message_analytics` call
raises. -/
def dbSaveRaises : QueueDB :=
  ⟨[9], fun _ => [⟨9, 1, "s".data, userStr, "hi there".data⟩],
   fun _ => .raised, true, true⟩

/-- One pending whitespace-only message (id 3) alongside a normal one. -/
def dbEmptyMessage : QueueDB :=
  ⟨[3, 4], fun _ => [⟨3, 1, "s".data, userStr, "   ".data⟩,
                     ⟨4, 1, "s".data, userStr, "hi there".data⟩],
   fun _ => .ok, true, true⟩

/-- Three pending messages; the second is whitespace-only, so its position
is consumed without a persisted row (sequence numbers 1 and 3). -/
def dbGapRun : QueueDB :=
  ⟨[1, 2, 3],
   fun _ => [⟨1, 1, "s".data, userStr, "first one".data⟩,
             ⟨2, 1, "s".data, userStr, "  ".data⟩,
             ⟨3, 1, "s".data, userStr, "third one".data⟩],
   fun _ => .ok, true, true⟩

/-- A session consisting of one message stored with role `assistant` whose
content contains a quoted substring (so the parser's fallback labels it
`user`). -/
def msgsAssistantQuoted : List PipeMsg :=
  [⟨1, 7, "s".data, "assistant".data, "say \"hi\"".data⟩]

/-! ## Helper lemmas -/

/-- Every event the per-message loop emits is an analyzer call or a
`save_message_analytics` invocation; marking and clearing happen only after
the loop. -/
theorem mem_processLoop_events (oracle : Oracle) (so : Nat → SaveOutcome) :
    ∀ (k : Nat) (msgs : List PipeMsg) (ev : DBEvent),
      ev ∈ (processLoop oracle so k msgs).2.2 →
      (∃ i t, ev = .analyzeCall i t) ∨
      (∃ i seq r t b, ev = .saveAnalytics i seq r t b) := by
  intro k msgs
  induction msgs generalizing k with
  | nil => intro ev h; simp [processLoop] at h
  | cons m rest ih =>
    intro ev h
    unfold processLoop at h
    by_cases he : (pyStrip (pipeText m)).isEmpty
    · simp only [he, if_true] at h
      exact ih (k + 1) ev h
    · simp only [he, if_false, Bool.false_eq_true] at h
      rcases hso : so m.id with _ | _ | _ <;> rw [hso] at h <;>
        simp only [List.mem_cons] at h <;>
        rcases h with h | h | h
      · exact Or.inl ⟨_, _, h⟩
      · exact Or.inr ⟨_, _, _, _, _, h⟩
      · exact ih (k + 1) ev h
      · exact Or.inl ⟨_, _, h⟩
      · exact Or.inr ⟨_, _, _, _, _, h⟩
      · exact ih (k + 1) ev h
      · exact Or.inl ⟨_, _, h⟩
      · exact Or.inr ⟨_, _, _, _, _, h⟩
      · exact ih (k + 1) ev h

theorem processLoop_no_mark (oracle : Oracle) (so : Nat → SaveOutcome)
    (k : Nat) (msgs : List PipeMsg) (ids : List Nat) :
    DBEvent.markProcessed ids ∉ (processLoop oracle so k msgs).2.2 := by
  intro h
  rcases mem_processLoop_events oracle so k msgs _ h with ⟨_, _, h⟩ | ⟨_, _, _, _, _, h⟩ <;>
    cases h

theorem processLoop_no_clear (oracle : Oracle) (so : Nat → SaveOutcome)
    (k : Nat) (msgs : List PipeMsg) :
    DBEvent.clearEntries ∉ (processLoop oracle so k msgs).2.2 := by
  intro h
  rcases mem_processLoop_events oracle so k msgs _ h with ⟨_, _, h⟩ | ⟨_, _, _, _, _, h⟩ <;>
    cases h

theorem isEmpty_false_of_ne_nil {l : List α} (h : l ≠ []) :
    l.isEmpty = false := by
  cases l with
  | nil => exact absurd rfl h
  | cons a as => rfl

/-- Shape of the full-run trace when there is pending work and the fetch is
nonempty. -/
theorem run_events_eq (d : QueueDB) (oracle : Oracle)
    (h1 : d.unprocessed_ids ≠ []) (h2 : d.fetch d.unprocessed_ids ≠ []) :
    (process_unprocessed_messages d oracle).2 =
      DBEvent.getUnprocessed :: DBEvent.getMessages d.unprocessed_ids ::
        ((processLoop oracle d.save_out 1 (d.fetch d.unprocessed_ids)).2.2 ++
         (if (processLoop oracle d.save_out 1
               (d.fetch d.unprocessed_ids)).2.1.isEmpty then []
          else [DBEvent.markProcessed
                  (processLoop oracle d.save_out 1
                    (d.fetch d.unprocessed_ids)).2.1,
                DBEvent.clearEntries])) := by
  unfold process_unprocessed_messages
  simp only [isEmpty_false_of_ne_nil h1, isEmpty_false_of_ne_nil h2,
    Bool.false_eq_true, if_false]

/-- The call `mark_messages_processed` receives exactly the loop's collected id list
(and is not called at all when that list is empty). -/
theorem run_markedIds (d : QueueDB) (oracle : Oracle)
    (h1 : d.unprocessed_ids ≠ []) (h2 : d.fetch d.unprocessed_ids ≠ []) :
    markedIds (process_unprocessed_messages d oracle).2 =
      (processLoop oracle d.save_out 1 (d.fetch d.unprocessed_ids)).2.1 := by
  rw [markedIds, run_events_eq d oracle h1 h2]
  have hL : ((processLoop oracle d.save_out 1
      (d.fetch d.unprocessed_ids)).2.2).filterMap
      (fun ev => match ev with
        | DBEvent.markProcessed ids => some ids
        | _ => none) = [] := by
    rw [List.filterMap_eq_nil_iff]
    intro ev hev
    rcases mem_processLoop_events oracle d.save_out 1 _ ev hev with
      ⟨_, _, rfl⟩ | ⟨_, _, _, _, _, rfl⟩ <;> rfl
  by_cases h3 : (processLoop oracle d.save_out 1
      (d.fetch d.unprocessed_ids)).2.1.isEmpty
  · rw [List.isEmpty_iff] at h3
    simp [hL, h3]
  · simp only [h3, Bool.false_eq_true, if_false, List.filterMap_cons,
      List.filterMap_append, hL]
    simp

theorem run_saveIds (d : QueueDB) (oracle : Oracle)
    (h1 : d.unprocessed_ids ≠ []) (h2 : d.fetch d.unprocessed_ids ≠ []) :
    saveIds (process_unprocessed_messages d oracle).2 =
      saveIds (processLoop oracle d.save_out 1
        (d.fetch d.unprocessed_ids)).2.2 := by
  rw [saveIds, run_events_eq d oracle h1 h2]
  by_cases h3 : (processLoop oracle d.save_out 1
      (d.fetch d.unprocessed_ids)).2.1.isEmpty <;>
    simp [h3, saveIds, List.filterMap_append]

theorem run_analyzeIds (d : QueueDB) (oracle : Oracle)
    (h1 : d.unprocessed_ids ≠ []) (h2 : d.fetch d.unprocessed_ids ≠ []) :
    analyzeIds (process_unprocessed_messages d oracle).2 =
      analyzeIds (processLoop oracle d.save_out 1
        (d.fetch d.unprocessed_ids)).2.2 := by
  rw [analyzeIds, run_events_eq d oracle h1 h2]
  by_cases h3 : (processLoop oracle d.save_out 1
      (d.fetch d.unprocessed_ids)).2.1.isEmpty <;>
    simp [h3, analyzeIds, List.filterMap_append]

theorem run_persistedSeqs (d : QueueDB) (oracle : Oracle)
    (h1 : d.unprocessed_ids ≠ []) (h2 : d.fetch d.unprocessed_ids ≠ []) :
    persistedSeqs (process_unprocessed_messages d oracle).2 =
      persistedSeqs (processLoop oracle d.save_out 1
        (d.fetch d.unprocessed_ids)).2.2 := by
  rw [persistedSeqs, run_events_eq d oracle h1 h2]
  by_cases h3 : (processLoop oracle d.save_out 1
      (d.fetch d.unprocessed_ids)).2.1.isEmpty <;>
    simp [h3, persistedSeqs, List.filterMap_append]

/-- Ids collected for marking originate from the processed batch. -/
theorem processLoop_pids_subset (oracle : Oracle) (so : Nat → SaveOutcome) :
    ∀ (k : Nat) (msgs : List PipeMsg) (x : Nat),
      x ∈ (processLoop oracle so k msgs).2.1 → x ∈ msgs.map PipeMsg.id := by
  intro k msgs
  induction msgs generalizing k with
  | nil => intro x h; simp [processLoop] at h
  | cons m rest ih =>
    intro x h
    unfold processLoop at h
    by_cases he : (pyStrip (pipeText m)).isEmpty
    · simp only [he, if_true, List.mem_cons] at h
      rcases h with h | h
      · simp [h]
      · simp only [List.map_cons, List.mem_cons]
        exact Or.inr (ih (k + 1) x h)
    · simp only [he, Bool.false_eq_true, if_false] at h
      rcases hso : so m.id with _ | _ | _ <;> rw [hso] at h <;>
        simp only [List.mem_cons] at h
      · rcases h with h | h
        · simp [h]
        · simp only [List.map_cons, List.mem_cons]
          exact Or.inr (ih (k + 1) x h)
      · simp only [List.map_cons, List.mem_cons]
        exact Or.inr (ih (k + 1) x h)
      · rcases h with h | h
        · simp [h]
        · simp only [List.map_cons, List.mem_cons]
          exact Or.inr (ih (k + 1) x h)

/-- A message skipped as empty still has its id collected for marking. -/
theorem processLoop_skip_mem_pids (oracle : Oracle) (so : Nat → SaveOutcome) :
    ∀ (k : Nat) (msgs : List PipeMsg) (m : PipeMsg), m ∈ msgs →
      (pyStrip (pipeText m)).isEmpty = true →
      m.id ∈ (processLoop oracle so k msgs).2.1 := by
  intro k msgs
  induction msgs generalizing k with
  | nil => intro m hm; simp at hm
  | cons m0 rest ih =>
    intro m hm he
    unfold processLoop
    rcases List.mem_cons.mp hm with rfl | hm
    · simp only [he, if_true, List.mem_cons]
      exact Or.inl trivial
    · by_cases he0 : (pyStrip (pipeText m0)).isEmpty
      · simp only [he0, if_true, List.mem_cons]
        exact Or.inr (ih (k + 1) m hm he)
      · simp only [he0, Bool.false_eq_true, if_false]
        rcases hso : so m0.id with _ | _ | _ <;>
          simp only [List.mem_cons]
        · exact Or.inr (ih (k + 1) m hm he)
        · exact ih (k + 1) m hm he
        · exact Or.inr (ih (k + 1) m hm he)

/-- A message whose save raised still has its id collected for marking. -/
theorem processLoop_raised_mem_pids (oracle : Oracle) (so : Nat → SaveOutcome) :
    ∀ (k : Nat) (msgs : List PipeMsg) (m : PipeMsg), m ∈ msgs →
      (pyStrip (pipeText m)).isEmpty = false → so m.id = .raised →
      m.id ∈ (processLoop oracle so k msgs).2.1 := by
  intro k msgs
  induction msgs generalizing k with
  | nil => intro m hm; simp at hm
  | cons m0 rest ih =>
    intro m hm he hr
    unfold processLoop
    rcases List.mem_cons.mp hm with rfl | hm
    · simp only [he, Bool.false_eq_true, if_false, hr, List.mem_cons]
      exact Or.inl trivial
    · by_cases he0 : (pyStrip (pipeText m0)).isEmpty
      · simp only [he0, if_true, List.mem_cons]
        exact Or.inr (ih (k + 1) m hm he hr)
      · simp only [he0, Bool.false_eq_true, if_false]
        rcases hso : so m0.id with _ | _ | _ <;>
          simp only [List.mem_cons]
        · exact Or.inr (ih (k + 1) m hm he hr)
        · exact ih (k + 1) m hm he hr
        · exact Or.inr (ih (k + 1) m hm he hr)

/-- A message whose save returned `False` (without raising) is NOT
collected for marking, so it stays pending. -/
theorem processLoop_failed_not_mem_pids (oracle : Oracle)
    (so : Nat → SaveOutcome) :
    ∀ (k : Nat) (msgs : List PipeMsg) (m : PipeMsg),
      (msgs.map PipeMsg.id).Nodup → m ∈ msgs →
      (pyStrip (pipeText m)).isEmpty = false → so m.id = .failed →
      m.id ∉ (processLoop oracle so k msgs).2.1 := by
  intro k msgs
  induction msgs generalizing k with
  | nil => intro m _ hm; simp at hm
  | cons m0 rest ih =>
    intro m hnd hm he hf
    have hnd0 : m0.id ∉ rest.map PipeMsg.id :=
      (List.nodup_cons.mp (by simpa using hnd)).1
    have hndr : (rest.map PipeMsg.id).Nodup :=
      (List.nodup_cons.mp (by simpa using hnd)).2
    unfold processLoop
    rcases List.mem_cons.mp hm with rfl | hm
    · simp only [he, Bool.false_eq_true, if_false, hf]
      intro hc
      exact hnd0 (processLoop_pids_subset oracle so (k + 1) rest m.id hc)
    · have hne : m0.id ≠ m.id := by
        intro hc
        exact hnd0 (hc ▸ List.mem_map_of_mem PipeMsg.id hm)
      by_cases he0 : (pyStrip (pipeText m0)).isEmpty
      · simp only [he0, if_true, List.mem_cons]
        intro hc
        rcases hc with hc | hc
        · exact hne hc.symm
        · exact ih (k + 1) m hndr hm he hf hc
      · simp only [he0, Bool.false_eq_true, if_false]
        rcases hso : so m0.id with _ | _ | _ <;>
          simp only [List.mem_cons] <;> intro hc
        · rcases hc with hc | hc
          · exact hne hc.symm
          · exact ih (k + 1) m hndr hm he hf hc
        · exact ih (k + 1) m hndr hm he hf hc
        · rcases hc with hc | hc
          · exact hne hc.symm
          · exact ih (k + 1) m hndr hm he hf hc

/-- Every save invocation in the loop trace belongs to a batch message. -/
theorem processLoop_saveIds_subset (oracle : Oracle) (so : Nat → SaveOutcome) :
    ∀ (k : Nat) (msgs : List PipeMsg) (x : Nat),
      x ∈ saveIds (processLoop oracle so k msgs).2.2 →
      x ∈ msgs.map PipeMsg.id := by
  intro k msgs
  induction msgs generalizing k with
  | nil => intro x h; simp [processLoop, saveIds] at h
  | cons m0 rest ih =>
    intro x h
    unfold processLoop at h
    by_cases he0 : (pyStrip (pipeText m0)).isEmpty
    · simp only [he0, if_true] at h
      simp only [List.map_cons, List.mem_cons]
      exact Or.inr (ih (k + 1) x h)
    · simp only [he0, Bool.false_eq_true, if_false] at h
      rcases hso : so m0.id with _ | _ | _ <;> rw [hso] at h <;>
        simp only [saveIds, List.filterMap_cons] at h <;>
        simp only [List.mem_cons] at h <;>
        rcases h with h | h
      · simp [h]
      · simp only [List.map_cons, List.mem_cons]
        exact Or.inr (ih (k + 1) x h)
      · simp [h]
      · simp only [List.map_cons, List.mem_cons]
        exact Or.inr (ih (k + 1) x h)
      · simp [h]
      · simp only [List.map_cons, List.mem_cons]
        exact Or.inr (ih (k + 1) x h)

/-- Every analyzer invocation in the loop trace belongs to a batch
message. -/
theorem processLoop_analyzeIds_subset (oracle : Oracle)
    (so : Nat → SaveOutcome) :
    ∀ (k : Nat) (msgs : List PipeMsg) (x : Nat),
      x ∈ analyzeIds (processLoop oracle so k msgs).2.2 →
      x ∈ msgs.map PipeMsg.id := by
  intro k msgs
  induction msgs generalizing k with
  | nil => intro x h; simp [processLoop, analyzeIds] at h
  | cons m0 rest ih =>
    intro x h
    unfold processLoop at h
    by_cases he0 : (pyStrip (pipeText m0)).isEmpty
    · simp only [he0, if_true] at h
      simp only [List.map_cons, List.mem_cons]
      exact Or.inr (ih (k + 1) x h)
    · simp only [he0, Bool.false_eq_true, if_false] at h
      rcases hso : so m0.id with _ | _ | _ <;> rw [hso] at h <;>
        simp only [analyzeIds, List.filterMap_cons] at h <;>
        simp only [List.mem_cons] at h <;>
        rcases h with h | h
      · simp [h]
      · simp only [List.map_cons, List.mem_cons]
        exact Or.inr (ih (k + 1) x h)
      · simp [h]
      · simp only [List.map_cons, List.mem_cons]
        exact Or.inr (ih (k + 1) x h)
      · simp [h]
      · simp only [List.map_cons, List.mem_cons]
        exact Or.inr (ih (k + 1) x h)

/-- A message with nonempty (stripped) text always produces a
`save_message_analytics` invocation, whatever its role and whatever the
save's outcome. -/
theorem processLoop_nonempty_mem_saveIds (oracle : Oracle)
    (so : Nat → SaveOutcome) :
    ∀ (k : Nat) (msgs : List PipeMsg) (m : PipeMsg), m ∈ msgs →
      (pyStrip (pipeText m)).isEmpty = false →
      m.id ∈ saveIds (processLoop oracle so k msgs).2.2 := by
  intro k msgs
  induction msgs generalizing k with
  | nil => intro m hm; simp at hm
  | cons m0 rest ih =>
    intro m hm he
    unfold processLoop
    rcases List.mem_cons.mp hm with rfl | hm
    · simp only [he, Bool.false_eq_true, if_false]
      rcases hso : so m.id with _ | _ | _ <;>
        simp [saveIds, List.filterMap_cons]
    · by_cases he0 : (pyStrip (pipeText m0)).isEmpty
      · simp only [he0, if_true]
        exact ih (k + 1) m hm he
      · simp only [he0, Bool.false_eq_true, if_false]
        rcases hso : so m0.id with _ | _ | _ <;>
          simp only [saveIds, List.filterMap_cons] <;>
          simp only [List.mem_cons] <;>
          exact Or.inr (ih (k + 1) m hm he)

/-- A message skipped as empty is never passed to the analyzer and never
triggers a save invocation (given distinct batch ids). -/
theorem processLoop_skip_no_save_no_analyze (oracle : Oracle)
    (so : Nat → SaveOutcome) :
    ∀ (k : Nat) (msgs : List PipeMsg) (m : PipeMsg),
      (msgs.map PipeMsg.id).Nodup → m ∈ msgs →
      (pyStrip (pipeText m)).isEmpty = true →
      m.id ∉ saveIds (processLoop oracle so k msgs).2.2 ∧
      m.id ∉ analyzeIds (processLoop oracle so k msgs).2.2 := by
  intro k msgs
  induction msgs generalizing k with
  | nil => intro m _ hm; simp at hm
  | cons m0 rest ih =>
    intro m hnd hm he
    have hnd0 : m0.id ∉ rest.map PipeMsg.id :=
      (List.nodup_cons.mp (by simpa using hnd)).1
    have hndr : (rest.map PipeMsg.id).Nodup :=
      (List.nodup_cons.mp (by simpa using hnd)).2
    unfold processLoop
    rcases List.mem_cons.mp hm with rfl | hm
    · simp only [he, if_true]
      constructor
      · intro hc
        exact hnd0 (processLoop_saveIds_subset oracle so (k + 1) rest m.id hc)
      · intro hc
        exact hnd0 (processLoop_analyzeIds_subset oracle so (k + 1) rest m.id hc)
    · have hne : m0.id ≠ m.id := by
        intro hc
        exact hnd0 (hc ▸ List.mem_map_of_mem PipeMsg.id hm)
      by_cases he0 : (pyStrip (pipeText m0)).isEmpty
      · simp only [he0, if_true]
        exact ih (k + 1) m hndr hm he
      · simp only [he0, Bool.false_eq_true, if_false]
        have hih := ih (k + 1) m hndr hm he
        rcases hso : so m0.id with _ | _ | _ <;>
          constructor <;>
          simp only [saveIds, analyzeIds, List.filterMap_cons] <;>
          simp only [List.mem_cons] <;>
          intro hc <;>
          rcases hc with hc | hc
        · exact hne hc.symm
        · exact hih.1 hc
        · exact hne hc.symm
        · exact hih.2 hc
        · exact hne hc.symm
        · exact hih.1 hc
        · exact hne hc.symm
        · exact hih.2 hc
        · exact hne hc.symm
        · exact hih.1 hc
        · exact hne hc.symm
        · exact hih.2 hc

/-- Persisted sequence numbers of the queue loop: exactly the 1-based
`enumerate` positions of the messages that were non-empty and whose save
returned `True`. -/
theorem processLoop_persistedSeqs (oracle : Oracle) (so : Nat → SaveOutcome) :
    ∀ (k : Nat) (msgs : List PipeMsg),
      persistedSeqs (processLoop oracle so k msgs).2.2 =
        (idxFrom k msgs).filterMap (fun p =>
          if (pyStrip (pipeText p.2)).isEmpty = false ∧ so p.2.id = .ok
          then some p.1 else none) := by
  intro k msgs
  induction msgs generalizing k with
  | nil => simp [processLoop, idxFrom, persistedSeqs]
  | cons m rest ih =>
    unfold processLoop idxFrom
    by_cases he : (pyStrip (pipeText m)).isEmpty
    · simp only [he, if_true, List.filterMap_cons]
      rw [if_neg (by simp [he])]
      exact ih (k + 1)
    · simp only [he, Bool.false_eq_true, if_false]
      rcases hso : so m.id with _ | _ | _ <;>
        simp only [persistedSeqs, List.filterMap_cons]
      · rw [if_pos ⟨by simp [he], hso⟩]
        simpa [persistedSeqs] using ih (k + 1)
      · rw [if_neg (by simp [hso])]
        simpa [persistedSeqs] using ih (k + 1)
      · rw [if_neg (by simp [hso])]
        simpa [persistedSeqs] using ih (k + 1)

/-- Persisted sequence numbers of the session loop: exactly the 1-based
`enumerate` positions of the user messages whose save returned `True`. -/
theorem analyze_and_save_persistedSeqs (oracle : Oracle)
    (so : Nat → SaveOutcome) :
    ∀ (k : Nat) (ums : List UserMsg),
      persistedSeqs (analyze_and_save_messages oracle so k ums).2 =
        (idxFrom k ums).filterMap (fun p =>
          if so p.2.id = .ok then some p.1 else none) := by
  intro k ums
  induction ums generalizing k with
  | nil => simp [analyze_and_save_messages, idxFrom, persistedSeqs]
  | cons m rest ih =>
    unfold analyze_and_save_messages idxFrom
    rcases hso : so m.id with _ | _ | _ <;>
      simp only [persistedSeqs, List.filterMap_cons]
    · rw [if_pos hso]
      simpa [persistedSeqs] using ih (k + 1)
    · rw [if_neg (by simp [hso])]
      simpa [persistedSeqs] using ih (k + 1)
    · rw [if_neg (by simp [hso])]
      simpa [persistedSeqs] using ih (k + 1)

/-- Every save invocation of the session loop belongs to a processed user
message. -/
theorem analyze_and_save_saveIds_subset (oracle : Oracle)
    (so : Nat → SaveOutcome) :
    ∀ (k : Nat) (ums : List UserMsg) (x : Nat),
      x ∈ saveIds (analyze_and_save_messages oracle so k ums).2 →
      x ∈ ums.map UserMsg.id := by
  intro k ums
  induction ums generalizing k with
  | nil => intro x h; simp [analyze_and_save_messages, saveIds] at h
  | cons m rest ih =>
    intro x h
    unfold analyze_and_save_messages at h
    rcases hso : so m.id with _ | _ | _ <;> rw [hso] at h <;>
      simp only [saveIds, List.filterMap_cons] at h <;>
      simp only [List.mem_cons] at h <;>
      rcases h with h | h
    · simp [h]
    · simp only [List.map_cons, List.mem_cons]
      exact Or.inr (ih (k + 1) x h)
    · simp [h]
    · simp only [List.map_cons, List.mem_cons]
      exact Or.inr (ih (k + 1) x h)
    · simp [h]
    · simp only [List.map_cons, List.mem_cons]
      exact Or.inr (ih (k + 1) x h)

/-- Characterization of `process_user_messages` as a filter: a message is kept exactly when its
parsed role is `user` or its stored role is `user`. -/
theorem process_user_messages_eq (msgs : List PipeMsg) :
    process_user_messages msgs = msgs.filterMap (fun m =>
      if (parse_chat_message_content m.content).1 = some userStr ∨
          m.role = userStr
      then some ⟨m.id, m.user_id, m.session_id, userStr, pipeText m⟩
      else none) := by
  induction msgs with
  | nil => rfl
  | cons m rest ih =>
    unfold process_user_messages
    rw [List.filterMap_cons]
    by_cases h : (parse_chat_message_content m.content).1 = some userStr ∨
        m.role = userStr
    · rw [if_pos h, if_pos h, ih]
      rfl
    · rw [if_neg h, if_neg h, ih]

/-- Every save invocation of a session run originates from a session
message whose parsed or stored role is `user`. -/
theorem session_saveIds_origin (oracle : Oracle) (so : Nat → SaveOutcome)
    (msgs : List PipeMsg) (x : Nat)
    (hx : x ∈ saveIds (process_session_analytics oracle so msgs).2) :
    ∃ m ∈ msgs,
      ((parse_chat_message_content m.content).1 = some userStr ∨
        m.role = userStr) ∧ m.id = x := by
  unfold process_session_analytics at hx
  by_cases h1 : msgs.isEmpty
  · rw [if_pos h1] at hx
    simp [saveIds] at hx
  · rw [if_neg h1] at hx
    by_cases h2 : (process_user_messages msgs).isEmpty
    · rw [if_pos h2] at hx
      simp [saveIds] at hx
    · rw [if_neg h2] at hx
      have hsub := analyze_and_save_saveIds_subset oracle so 1
        (process_user_messages msgs) x hx
      rw [process_user_messages_eq] at hsub
      obtain ⟨u, hu, hux⟩ := List.mem_map.mp hsub
      obtain ⟨m, hm, hif⟩ := List.mem_filterMap.mp hu
      by_cases hc : (parse_chat_message_content m.content).1 = some userStr ∨
          m.role = userStr
      · rw [if_pos hc] at hif
        refine ⟨m, hm, hc, ?_⟩
        have : u.id = m.id := by
          cases Option.some.inj hif
          rfl
        rw [← hux, this]
      · rw [if_neg hc] at hif
        cases hif

/-! ## Claim theorems -/

/-- C1: the claim states that `save_chat_message` creates, atomically with
the message insert, exactly one `log_inserts` row with the new message's
id.  The code does not: `init_database` creates neither a `log_inserts`
table nor any trigger, and `save_chat_message` writes only `chat_sessions`
and `chat_messages` — evaluating the insertion path on a fresh database
leaves zero matching queue entries (while the repository's own
`test_dashboard_system.py` requires the trigger and a queue entry after the
save, so the code contradicts its own tests). -/
theorem save_chat_message_creates_no_queue_entry :
    init_database_trigger_names = [] ∧
    "log_inserts".data ∉ init_database_table_names ∧
    (save_chat_message init_database 1 "s1".data userStr "hello".data).1
      = true ∧
    (save_chat_message init_database 1 "s1".data userStr
        "hello".data).2.chat_messages
      = [⟨1, 1, "s1".data, userStr, "hello".data⟩] ∧
    queueEntryCount
      (save_chat_message init_database 1 "s1".data userStr "hello".data).2 1
      = 0 :=
  ⟨rfl, by decide, by decide, by decide, rfl⟩

/-- C5: with the external model unconfigured (`model is None`),
`analyze_message` returns exactly the fixed neutral default
`{sentiment_score: 0.0, sentiment_label: "neutral", emotion_label:
"neutral", contains_keywords: []}` for every input text, and is total. -/
theorem analyze_message_unconfigured_neutral_default (message : List Char) :
    analyze_message none message = default_analysis ∧
    default_analysis =
      ⟨0, "neutral".data, "neutral".data, []⟩ :=
  ⟨rfl, rfl⟩

/-- Witness for `analyze_message_unconfigured_neutral_default` at a
concrete input text. -/
theorem analyze_message_unconfigured_neutral_default_witness :
    analyze_message none "I love it".data = default_analysis ∧
    default_analysis =
      ⟨0, "neutral".data, "neutral".data, []⟩ :=
  analyze_message_unconfigured_neutral_default "I love it".data

/-- C9: with an empty pending set, `process_unprocessed_messages` returns
success with `processed_count = 0` and `total_unprocessed = 0`, and its
trace consists of the single pending-set read: no message fetch, no
analysis, no analytics write, no marking, no clearing. -/
theorem empty_pending_set_is_noop (d : QueueDB) (oracle : Oracle)
    (h : d.unprocessed_ids = []) :
    process_unprocessed_messages d oracle =
      ({ success := true, processed_count := 0, total_unprocessed := 0,
         total_retrieved := none, marked_processed := none,
         message := some "No unprocessed messages found".data,
         error := none },
       [DBEvent.getUnprocessed]) ∧
    (∀ ev ∈ (process_unprocessed_messages d oracle).2,
      ev = DBEvent.getUnprocessed) := by
  have h1 : process_unprocessed_messages d oracle =
      ({ success := true, processed_count := 0, total_unprocessed := 0,
         total_retrieved := none, marked_processed := none,
         message := some "No unprocessed messages found".data,
         error := none },
       [DBEvent.getUnprocessed]) := by
    unfold process_unprocessed_messages
    rw [h]
    rfl
  refine ⟨h1, ?_⟩
  rw [h1]
  intro ev hev
  simpa using hev

/-- Witness for `empty_pending_set_is_noop` at a concrete storage state. -/
theorem empty_pending_set_is_noop_witness :
    dbEmptyQueue.unprocessed_ids = [] ∧
    process_unprocessed_messages dbEmptyQueue none =
      ({ success := true, processed_count := 0, total_unprocessed := 0,
         total_retrieved := none, marked_processed := none,
         message := some "No unprocessed messages found".data,
         error := none },
       [DBEvent.getUnprocessed]) :=
  ⟨rfl, (empty_pending_set_is_noop dbEmptyQueue none rfl).1⟩

/-- C7 counterexample: the claim says `clear_processed_log_entries` is
never invoked when marking failed; but on a run where
`mark_messages_processed` reports failure (`mark_ok = false`) the clear
call still appears in the trace (source lines 523-528 ignore
`mark_success` except for logging). -/
theorem clear_invoked_after_failed_mark :
    dbMarkFails.mark_ok = false ∧
    DBEvent.clearEntries ∈ (process_unprocessed_messages dbMarkFails none).2 :=
  ⟨rfl, by decide⟩

/-- C7 amended: in every run, `clear_processed_log_entries` is invoked only
after `mark_messages_processed` (immediately after it, and neither occurs
when no id was collected) — but it is invoked regardless of whether marking
reported success. -/
theorem clear_only_directly_after_mark (d : QueueDB) (oracle : Oracle) :
    ((∀ ids, DBEvent.markProcessed ids ∉
        (process_unprocessed_messages d oracle).2) ∧
      DBEvent.clearEntries ∉ (process_unprocessed_messages d oracle).2) ∨
    (∃ pre pids, (process_unprocessed_messages d oracle).2 =
        pre ++ [DBEvent.markProcessed pids, DBEvent.clearEntries] ∧
      (∀ ids, DBEvent.markProcessed ids ∉ pre) ∧
      DBEvent.clearEntries ∉ pre) := by
  by_cases h1 : d.unprocessed_ids = []
  · left
    have hev : (process_unprocessed_messages d oracle).2 =
        [DBEvent.getUnprocessed] := by
      unfold process_unprocessed_messages
      rw [h1]
      rfl
    rw [hev]
    constructor
    · intro ids h; simp at h
    · simp
  · by_cases h2 : d.fetch d.unprocessed_ids = []
    · left
      unfold process_unprocessed_messages
      simp only [isEmpty_false_of_ne_nil h1, Bool.false_eq_true, if_false,
        h2, List.isEmpty_nil, if_true]
      constructor
      · intro ids h; simp at h
      · simp
    · have hev := run_events_eq d oracle h1 h2
      by_cases h3 : (processLoop oracle d.save_out 1
          (d.fetch d.unprocessed_ids)).2.1.isEmpty
      · left
        rw [hev]
        simp only [h3, if_true, List.append_nil]
        constructor
        · intro ids h
          simp only [List.mem_cons] at h
          rcases h with h | h | h
          · cases h
          · cases h
          · exact processLoop_no_mark oracle d.save_out 1 _ ids h
        · intro h
          simp only [List.mem_cons] at h
          rcases h with h | h | h
          · cases h
          · cases h
          · exact processLoop_no_clear oracle d.save_out 1 _ h
      · right
        refine ⟨DBEvent.getUnprocessed :: DBEvent.getMessages d.unprocessed_ids ::
            (processLoop oracle d.save_out 1 (d.fetch d.unprocessed_ids)).2.2,
          (processLoop oracle d.save_out 1 (d.fetch d.unprocessed_ids)).2.1,
          ?_, ?_, ?_⟩
        · rw [hev]
          simp only [h3, Bool.false_eq_true, if_false]
          simp
        · intro ids h
          simp only [List.mem_cons] at h
          rcases h with h | h | h
          · cases h
          · cases h
          · exact processLoop_no_mark oracle d.save_out 1 _ ids h
        · intro h
          simp only [List.mem_cons] at h
          rcases h with h | h | h
          · cases h
          · cases h
          · exact processLoop_no_clear oracle d.save_out 1 _ h

/-- Witness for `clear_only_directly_after_mark` at a concrete run. -/
theorem clear_only_directly_after_mark_witness :
    ((∀ ids, DBEvent.markProcessed ids ∉
        (process_unprocessed_messages dbMarkFails none).2) ∧
      DBEvent.clearEntries ∉ (process_unprocessed_messages dbMarkFails none).2) ∨
    (∃ pre pids, (process_unprocessed_messages dbMarkFails none).2 =
        pre ++ [DBEvent.markProcessed pids, DBEvent.clearEntries] ∧
      (∀ ids, DBEvent.markProcessed ids ∉ pre) ∧
      DBEvent.clearEntries ∉ pre) :=
  clear_only_directly_after_mark dbMarkFails none

/-- C3 counterexample: the claim includes "save_message_analytics reports
failure" among the cases whose message id is still passed to
`mark_processed`; but when the save returns `False` without raising, the
source (lines 502-511) does not append the id, so it is never marked: on a
one-message batch whose save reports failure, the save invocation appears
in the trace yet the id is absent from every mark call (indeed
`mark_messages_processed` is never called). -/
theorem failed_save_id_not_marked :
    dbSaveFails.save_out 7 = SaveOutcome.failed ∧
    DBEvent.saveAnalytics 7 1 userStr "hi there".data false ∈
      (process_unprocessed_messages dbSaveFails none).2 ∧
    (7 : Nat) ∉ markedIds (process_unprocessed_messages dbSaveFails none).2 :=
  ⟨rfl, by decide, by decide⟩

/-- C3 amended: a message whose processing raises an exception is logged
and still has its id included in the set passed to `mark_processed`; a
message whose `save_message_analytics` returns failure without raising is
NOT included and remains pending. -/
theorem per_message_failure_marking_policy (d : QueueDB) (oracle : Oracle)
    (m : PipeMsg) (hm : m ∈ d.fetch d.unprocessed_ids)
    (h1 : d.unprocessed_ids ≠ [])
    (hnd : ((d.fetch d.unprocessed_ids).map PipeMsg.id).Nodup)
    (he : (pyStrip (pipeText m)).isEmpty = false) :
    (d.save_out m.id = .raised →
      m.id ∈ markedIds (process_unprocessed_messages d oracle).2) ∧
    (d.save_out m.id = .failed →
      m.id ∉ markedIds (process_unprocessed_messages d oracle).2) := by
  have h2 : d.fetch d.unprocessed_ids ≠ [] := by
    intro hc
    rw [hc] at hm
    simp at hm
  rw [run_markedIds d oracle h1 h2]
  exact ⟨fun hr =>
      processLoop_raised_mem_pids oracle d.save_out 1 _ m hm he hr,
    fun hf =>
      processLoop_failed_not_mem_pids oracle d.save_out 1 _ m hnd hm he hf⟩

/-- Witness for `per_message_failure_marking_policy`: a raising save still
gets its id marked. -/
theorem per_message_failure_marking_policy_witness :
    (9 : Nat) ∈ markedIds (process_unprocessed_messages dbSaveRaises none).2 :=
  (per_message_failure_marking_policy dbSaveRaises none
    ⟨9, 1, "s".data, userStr, "hi there".data⟩
    (by decide) (by decide) (by decide) (by decide)).1 rfl

/-- C6: a message whose parsed text (falling back to the raw content) is
empty or whitespace-only triggers no `save_message_analytics` invocation
and no analyzer call, yet its id is still included in the ids passed to
`mark_processed`. -/
theorem empty_message_skipped_but_marked (d : QueueDB) (oracle : Oracle)
    (m : PipeMsg) (hm : m ∈ d.fetch d.unprocessed_ids)
    (h1 : d.unprocessed_ids ≠ [])
    (hnd : ((d.fetch d.unprocessed_ids).map PipeMsg.id).Nodup)
    (he : (pyStrip (pipeText m)).isEmpty = true) :
    m.id ∉ saveIds (process_unprocessed_messages d oracle).2 ∧
    m.id ∉ analyzeIds (process_unprocessed_messages d oracle).2 ∧
    m.id ∈ markedIds (process_unprocessed_messages d oracle).2 := by
  have h2 : d.fetch d.unprocessed_ids ≠ [] := by
    intro hc
    rw [hc] at hm
    simp at hm
  rw [run_saveIds d oracle h1 h2, run_analyzeIds d oracle h1 h2,
    run_markedIds d oracle h1 h2]
  have hsk := processLoop_skip_no_save_no_analyze oracle d.save_out 1 _ m hnd hm he
  exact ⟨hsk.1, hsk.2, processLoop_skip_mem_pids oracle d.save_out 1 _ m hm he⟩

/-- Witness for `empty_message_skipped_but_marked`: the whitespace-only
message id 3 of `dbEmptyMessage`. -/
theorem empty_message_skipped_but_marked_witness :
    (3 : Nat) ∉ saveIds (process_unprocessed_messages dbEmptyMessage none).2 ∧
    (3 : Nat) ∉ analyzeIds (process_unprocessed_messages dbEmptyMessage none).2 ∧
    (3 : Nat) ∈ markedIds (process_unprocessed_messages dbEmptyMessage none).2 :=
  empty_message_skipped_but_marked dbEmptyMessage none
    ⟨3, 1, "s".data, userStr, "   ".data⟩
    (by decide) (by decide) (by decide) (by decide)

/-- C10: in both pipelines the `sequence_number` passed to each persisted
`AnalysisResult` equals the message's 1-based `enumerate` position in the
full list iterated in that invocation — positions of skipped-empty and
failed messages are consumed but produce no row — and a concrete run shows
the resulting gap (persisted sequence numbers `[1, 3]`); each invocation
enumerates from 1. -/
theorem sequence_numbers_are_iteration_positions :
    (∀ (d : QueueDB) (oracle : Oracle), d.unprocessed_ids ≠ [] →
      d.fetch d.unprocessed_ids ≠ [] →
      persistedSeqs (process_unprocessed_messages d oracle).2 =
        (idxFrom 1 (d.fetch d.unprocessed_ids)).filterMap (fun p =>
          if (pyStrip (pipeText p.2)).isEmpty = false ∧
              d.save_out p.2.id = .ok
          then some p.1 else none)) ∧
    (∀ (oracle : Oracle) (so : Nat → SaveOutcome) (msgs : List PipeMsg),
      msgs ≠ [] → process_user_messages msgs ≠ [] →
      persistedSeqs (process_session_analytics oracle so msgs).2 =
        (idxFrom 1 (process_user_messages msgs)).filterMap (fun p =>
          if so p.2.id = .ok then some p.1 else none)) ∧
    persistedSeqs (process_unprocessed_messages dbGapRun none).2 = [1, 3] := by
  refine ⟨?_, ?_, by decide⟩
  · intro d oracle h1 h2
    rw [run_persistedSeqs d oracle h1 h2, processLoop_persistedSeqs]
  · intro oracle so msgs h1 h2
    unfold process_session_analytics
    rw [if_neg (by simp [List.isEmpty_iff, h1]),
      if_neg (by simp [List.isEmpty_iff, h2])]
    exact analyze_and_save_persistedSeqs oracle so 1 (process_user_messages msgs)

/-- Witness for `sequence_numbers_are_iteration_positions` at the concrete
gap run. -/
theorem sequence_numbers_are_iteration_positions_witness :
    persistedSeqs (process_unprocessed_messages dbGapRun none).2 =
      (idxFrom 1 (dbGapRun.fetch dbGapRun.unprocessed_ids)).filterMap
        (fun p =>
          if (pyStrip (pipeText p.2)).isEmpty = false ∧
              dbGapRun.save_out p.2.id = .ok
          then some p.1 else none) :=
  sequence_numbers_are_iteration_positions.1 dbGapRun none
    (by decide) (by decide)

/-- C8 counterexample: the claim says the session-scoped pipeline creates
no `AnalysisResult` row for any message whose role is `assistant` or
`system`; but a stored-role-`assistant` message whose content contains a
quoted substring is parsed as role `user` (the parser's fallback) and IS
analyzed and persisted by the session pipeline. -/
theorem assistant_message_analyzed_in_session_pipeline :
    (∀ m ∈ msgsAssistantQuoted, m.role = "assistant".data) ∧
    (1 : Nat) ∈ saveIds
      (process_session_analytics none (fun _ => .ok) msgsAssistantQuoted).2 ∧
    (process_session_analytics none (fun _ => .ok)
        msgsAssistantQuoted).1.processed_count = 1 :=
  ⟨by decide, by decide, by decide⟩

/-- C8 amended: the session-scoped pipeline analyzes exactly the messages
whose PARSED role is `user` or whose stored role is `user` — an
`assistant`/`system` message is excluded only when its content also does
not parse to role `user` — while the queue-driven pipeline analyzes every
(non-empty) message regardless of role. -/
theorem role_filtering_policies (oracle : Oracle) (so : Nat → SaveOutcome)
    (msgs : List PipeMsg) (m : PipeMsg) (hm : m ∈ msgs)
    (hnd : (msgs.map PipeMsg.id).Nodup)
    (d : QueueDB) (oracle2 : Oracle) (m2 : PipeMsg)
    (h1 : d.unprocessed_ids ≠ []) (hm2 : m2 ∈ d.fetch d.unprocessed_ids)
    (he2 : (pyStrip (pipeText m2)).isEmpty = false) :
    ((parse_chat_message_content m.content).1 ≠ some userStr →
      m.role ≠ userStr →
      m.id ∉ saveIds (process_session_analytics oracle so msgs).2) ∧
    m2.id ∈ saveIds (process_unprocessed_messages d oracle2).2 := by
  constructor
  · intro hp hr hc
    obtain ⟨m3, hm3, hkeep, hid⟩ :=
      session_saveIds_origin oracle so msgs m.id hc
    have : m3 = m :=
      List.inj_on_of_nodup_map hnd hm3 hm hid
    rw [this] at hkeep
    rcases hkeep with hkeep | hkeep
    · exact hp hkeep
    · exact hr hkeep
  · have h2 : d.fetch d.unprocessed_ids ≠ [] := by
      intro hc
      rw [hc] at hm2
      simp at hm2
    rw [run_saveIds d oracle2 h1 h2]
    exact processLoop_nonempty_mem_saveIds oracle2 d.save_out 1 _ m2 hm2 he2

/-- Witness for `role_filtering_policies`: a plain-text assistant message
is excluded from the session pipeline, while the queue pipeline saves an
assistant message. -/
theorem role_filtering_policies_witness :
    (11 : Nat) ∉ saveIds
      (process_session_analytics none (fun _ => .ok)
        [⟨11, 7, "s".data, "assistant".data, "plain words only".data⟩]).2 ∧
    (5 : Nat) ∈ saveIds (process_unprocessed_messages dbMarkFails none).2 := by
  constructor
  · exact (role_filtering_policies none (fun _ => .ok)
      [⟨11, 7, "s".data, "assistant".data, "plain words only".data⟩]
      ⟨11, 7, "s".data, "assistant".data, "plain words only".data⟩
      (by decide) (by decide)
      dbMarkFails none ⟨5, 1, "s".data, userStr, "hi there".data⟩
      (by decide) (by decide) (by decide)).1 (by decide) (by decide)
  · exact (role_filtering_policies none (fun _ => .ok)
      [⟨11, 7, "s".data, "assistant".data, "plain words only".data⟩]
      ⟨11, 7, "s".data, "assistant".data, "plain words only".data⟩
      (by decide) (by decide)
      dbMarkFails none ⟨5, 1, "s".data, userStr, "hi there".data⟩
      (by decide) (by decide) (by decide)).2

/-- C4: `parse_chat_message_content` is total (it is a Lean function; every
exception path of the source is unreachable for string inputs) and follows
the three-step priority: a match of the `role='X' ... content=[Y]` encoding
returns `X` with `Y` cleaned (wrapping quotes stripped, escaped newlines
collapsed to spaces, whitespace trimmed); otherwise a quoted substring
anywhere in the input returns `("user", first quoted substring)`; otherwise
the input is returned trimmed, with no role. -/
theorem parser_priority_and_totality (s : List Char) :
    (∀ r y, searchRoleContent s = some (r, y) →
      parse_chat_message_content s =
        (some r, pyStrip (replaceEscNl (stripOneWrapQuote (pyStrip y))))) ∧
    (searchRoleContent s = none → ∀ q, searchQuoted s = some q →
      parse_chat_message_content s = (some userStr, q)) ∧
    (searchRoleContent s = none → searchQuoted s = none →
      parse_chat_message_content s = (none, pyStrip s)) := by
  refine ⟨?_, ?_, ?_⟩
  · intro r y h
    unfold parse_chat_message_content
    rw [h]
    rfl
  · intro h q hq
    unfold parse_chat_message_content
    rw [h, hq]
  · intro h hq
    unfold parse_chat_message_content
    rw [h, hq]

/-- Witness for `parser_priority_and_totality` on the specification's
example encoding (and the cleaned text it promises). -/
theorem parser_priority_and_totality_witness :
    parse_chat_message_content
        "x role='assistant' y content=['Hello there'] z".data =
      (some "assistant".data,
       pyStrip (replaceEscNl (stripOneWrapQuote
         (pyStrip "'Hello there'".data)))) :=
  (parser_priority_and_totality
      "x role='assistant' y content=['Hello there'] z".data).1
    "assistant".data "'Hello there'".data (by decide)

/-- Lowercasing an absent-or-string dict entry succeeds, yielding the
lowercased string (or the lowercase default `"neutral"`). -/
theorem strOpt_lower (o : Option PyVal) (h : isStrOpt o = true) :
    ∃ t, pyLower? (o.getD (.strV neutralStr)) = some t ∧
      (o = none → t = neutralStr) ∧
      (∀ s, o = some (.strV s) → t = s.map Char.toLower) := by
  cases o with
  | none =>
    refine ⟨neutralStr, by decide, fun _ => rfl, ?_⟩
    intro s hs
    cases hs
  | some v =>
    cases v with
    | strV s =>
      refine ⟨s.map Char.toLower, rfl, ?_, ?_⟩
      · intro hc
        cases hc
      · intro s2 hs2
        cases Option.some.inj hs2
        rfl
    | intV n => exact absurd h (by simp [isStrOpt])
    | floatV q => exact absurd h (by simp [isStrOpt])
    | boolV b => exact absurd h (by simp [isStrOpt])
    | listV l => exact absurd h (by simp [isStrOpt])
    | noneV => exact absurd h (by simp [isStrOpt])
    | dictV l => exact absurd h (by simp [isStrOpt])

theorem clampScore_bounds (q : ℚ) :
    -1 ≤ clampScore q ∧ clampScore q ≤ 1 := by
  unfold clampScore
  refine ⟨le_max_left _ _, ?_⟩
  apply max_le
  · norm_num
  · exact min_le_left _ _

theorem deriveLabel_mem (q : ℚ) :
    deriveLabel q ∈ [positiveStr, neutralStr, negativeStr] := by
  unfold deriveLabel
  split_ifs <;> decide

/-- C2 counterexample: the claim's guarantees are stated for every input
dict, but on a dict whose `sentiment_label` is a (JSON) number the
validation raises (`.lower()` on a non-string) and yields nothing; the
score `0.5` would have re-derived label `"positive"`, yet `analyze_message`
falls back to the all-neutral default instead. -/
theorem validation_spec_fails_on_number_label :
    ¬ ValidationSpec dictNumberLabel ∧
    validate_analysis dictNumberLabel = none ∧
    deriveLabel (clampScore (1/2)) = positiveStr ∧
    analyze_message (some fun _ => some dictNumberLabel) "hi".data =
      default_analysis := by
  refine ⟨?_, rfl, by norm_num [deriveLabel, clampScore], rfl⟩
  rintro ⟨v, hv, -⟩
  rw [show validate_analysis dictNumberLabel = none from rfl] at hv
  exact Option.noConfusion hv

/-- C2 amended: for every input dict whose `sentiment_label` and
`emotion_label` entries (when present) are strings, `_validate_analysis`
succeeds and its result satisfies all the claimed guarantees: clamped
score (`0` if non-numeric), three-value sentiment label re-derived from
the clamped score when the lowercased input label is invalid, seven-value
emotion label defaulting to neutral, and at most five stringified,
stripped, nonempty keywords (`[]` when the input is not a list).  When a
label entry is a non-string, validation raises instead and
`analyze_message` returns the neutral default. -/
theorem validation_spec_for_string_labels (a : AnalysisDict)
    (h1 : isStrOpt a.sentiment_label = true)
    (h2 : isStrOpt a.emotion_label = true) :
    ValidationSpec a := by
  obtain ⟨l, hl, hlnone, hlsome⟩ := strOpt_lower a.sentiment_label h1
  obtain ⟨e, he, henone, hesome⟩ := strOpt_lower a.emotion_label h2
  have hva : validate_analysis a = some
      ⟨(match pyFloat? (a.sentiment_score.getD (.floatV 0)) with
          | some q => clampScore q
          | none => 0),
        (if l = positiveStr ∨ l = negativeStr ∨ l = neutralStr then l
         else deriveLabel
           (match pyFloat? (a.sentiment_score.getD (.floatV 0)) with
             | some q => clampScore q
             | none => 0)),
        (if e ∈ validEmotions then e else neutralStr),
        (match a.contains_keywords.getD (.listV []) with
          | .listV lst =>
            ((lst.take 5).map (fun kw => pyStrip (pyStr kw))).filter
              (fun s => !s.isEmpty)
          | _ => [])⟩ := by
    simp only [validate_analysis, hl, he]
  refine ⟨_, hva, ?_, ?_, ?_, ?_, ?_, ?_, ?_, ?_, ?_, ?_, ?_, ?_, ?_⟩
  · -- score bounds
    cases hq : pyFloat? (a.sentiment_score.getD (.floatV 0)) with
    | none => simp [hq]
    | some q => simpa [hq] using clampScore_bounds q
  · -- numeric score is the clamp
    intro q hq
    simp [hq]
  · -- non-numeric score is zero
    intro hq
    simp [hq]
  · -- sentiment label is in the enum
    by_cases hc : l = positiveStr ∨ l = negativeStr ∨ l = neutralStr
    · rcases hc with hc | hc | hc <;> simp [hc]
    · simpa [hc] using deriveLabel_mem _
  · -- valid lowercased label is kept
    intro s hs hmem
    have hls := hlsome s hs
    subst hls
    rcases hmem with hc | hc | hc <;> simp [hc]
  · -- invalid lowercased label is re-derived from the clamped score
    intro s hs hmem
    have hls := hlsome s hs
    subst hls
    simp only [if_neg hmem]
  · -- absent label defaults to neutral
    intro hn
    have := hlnone hn
    subst this
    simp
  · -- emotion label is in the enum
    by_cases hc : e ∈ validEmotions
    · simp only [if_pos hc]
      exact hc
    · simp only [if_neg hc]
      decide
  · -- unrecognized emotion coerced to neutral
    intro s hs hmem
    have hes := hesome s hs
    subst hes
    simp [hmem]
  · -- recognized emotion kept
    intro s hs hmem
    have hes := hesome s hs
    subst hes
    simp [hmem]
  · -- at most five keywords
    cases hk : a.contains_keywords.getD (.listV []) with
    | listV lst =>
      simp only [hk]
      calc (((lst.take 5).map (fun kw => pyStrip (pyStr kw))).filter
              (fun s => !s.isEmpty)).length
          ≤ ((lst.take 5).map (fun kw => pyStrip (pyStr kw))).length :=
            List.length_filter_le _ _
        _ = (lst.take 5).length := List.length_map _ _
        _ ≤ 5 := by rw [List.length_take]; exact min_le_left _ _
    | intV n => simp [hk]
    | floatV q => simp [hk]
    | boolV b => simp [hk]
    | strV s => simp [hk]
    | noneV => simp [hk]
    | dictV dl => simp [hk]
  · -- each kept keyword is a nonempty stripped stringification
    intro k hk
    revert hk
    cases hg : a.contains_keywords.getD (.listV []) with
    | listV lst =>
      simp only [hg]
      intro hk
      obtain ⟨hmem, hne⟩ := List.mem_filter.mp hk
      obtain ⟨kw, hkw, rfl⟩ := List.mem_map.mp hmem
      refine ⟨?_, kw, ⟨lst, rfl, hkw⟩, rfl⟩
      simpa [List.isEmpty_iff] using hne
    | intV n => simp [hg]
    | floatV q => simp [hg]
    | boolV b => simp [hg]
    | strV s => simp [hg]
    | noneV => simp [hg]
    | dictV dl => simp [hg]
  · -- non-list keywords yield the empty list
    intro hnl
    cases hg : a.contains_keywords.getD (.listV []) with
    | listV lst => exact absurd hg (hnl lst)
    | intV n => simp [hg]
    | floatV q => simp [hg]
    | boolV b => simp [hg]
    | strV s => simp [hg]
    | noneV => simp [hg]
    | dictV dl => simp [hg]

/-- Witness for `validation_spec_for_string_labels` on the specification's
example response (score `5.0`, label `"Positive"`, emotion `"ecstatic"`, 8
keywords). -/
theorem validation_spec_for_string_labels_witness :
    isStrOpt dictSpecExample.sentiment_label = true ∧
    isStrOpt dictSpecExample.emotion_label = true ∧
    ValidationSpec dictSpecExample :=
  ⟨by decide, by decide,
   validation_spec_for_string_labels dictSpecExample (by decide) (by decide)⟩

end Capstone
